import Mathlib

/-!
Verification of the tincan chat server core (`internal/server/server.go`).

The server is embedded shallowly as a deterministic transition system:
the shared mutable state (`clients` map, `chatHistory`, chat log file) is a
`ServerState`, and the four externally visible kinds of activity on a
connection — registration on accept, the username handshake, one iteration
of the active message loop, and the deferred disconnect cleanup — are
state-transforming functions that also return the lines delivered to
clients.  In the coarse model (`step`/`run`) each such activity is one
atomic step; this matches the code's lock discipline except for the
handshake, where the duplicate-username scan and the activation happen
under separate lock acquisitions — the finer model
(`fineStep`/`fineRun`) splits the handshake at exactly those lock
boundaries and exposes the resulting race.  Transport connections are
identified by natural numbers standing for `net.Conn` values; wall-clock
timestamps of the log file are omitted.
-/

namespace Tincan

/-- `USERNAME_MAX_LEN` from server.go. -/
def USERNAME_MAX_LEN : Nat := 50

/-- `MAX_HISTORY_LINES` from server.go. -/
def MAX_HISTORY_LINES : Nat := 20

/-- The character class trimmed by Go's `strings.TrimSpace`
(`unicode.IsSpace` restricted to Latin-1: space, \t, \n, vertical tab,
form feed, \r, NEL, NBSP). -/
def goIsSpace (c : Char) : Bool :=
  c = ' ' || c = '\t' || c = '\n' || c = '\u000b' || c = '\u000c' || c = '\r' ||
  c = '\u0085' || c = '\u00a0'

/-- Go's `strings.TrimSpace`. -/
def goTrimSpace (s : String) : String :=
  String.mk (((s.toList.dropWhile goIsSpace).reverse.dropWhile goIsSpace).reverse)

/-- Whether the first list starts with the second
(Go's `strings.HasPrefix` on the underlying characters). -/
def charsStartWith : List Char → List Char → Bool
  | _, [] => true
  | [], _ :: _ => false
  | c :: cs, p :: ps => p == c && charsStartWith cs ps

/-- Go's `strings.HasPrefix`. -/
def goStartsWith (s pre : String) : Bool :=
  charsStartWith s.toList pre.toList

/-- Go's `strings.HasSuffix s "\n"`. -/
def goEndsWithNewline (s : String) : Bool :=
  s.toList.getLast? == some '\n'

/-- Append a final "\n" unless one is already present: the normalisation
performed by `logChatMessage`, `addMessageToHistory`, `sendToClient` and
`broadcastMessage` in server.go. -/
def ensureNewline (s : String) : String :=
  if goEndsWithNewline s then s else s ++ "\n"

/-- Go's `strings.TrimSuffix s "\n"`. -/
def trimNewline (s : String) : String :=
  if goEndsWithNewline s then String.mk s.toList.dropLast else s

/-- Split a character list at the first occurrence of `sep`;
`none` when `sep` does not occur. -/
def splitOnceChar (sep : Char) : List Char → Option (List Char × List Char)
  | [] => none
  | c :: cs =>
    if c = sep then some ([], cs)
    else
      match splitOnceChar sep cs with
      | none => none
      | some (a, b) => some (c :: a, b)

/-- Go's `strings.SplitN s " " 3`: at most three fields, the third keeps
any further spaces. -/
def splitN3Space (s : String) : List String :=
  match splitOnceChar ' ' s.toList with
  | none => [s]
  | some (a, rest) =>
    match splitOnceChar ' ' rest with
    | none => [String.mk a, String.mk rest]
    | some (b, c) => [String.mk a, String.mk b, String.mk c]

/-- `ClientInfo` from server.go; `conn` is the transport identity
(the `net.Conn` key of the `clients` map). -/
structure ClientInfo where
  conn : Nat
  username : String
  active : Bool
deriving DecidableEq

/-- `GroupInfo` from server.go. -/
structure GroupInfo where
  name : String
  members : List String
deriving DecidableEq

/-- The read-only configuration loaded by `loadAllowedUsers` / `loadGroups`. -/
structure Config where
  allowedUsernames : List String
  groups : List GroupInfo
deriving DecidableEq

/-- `isUsernameAllowed` from server.go (map membership). -/
def isUsernameAllowed (cfg : Config) (u : String) : Bool :=
  cfg.allowedUsernames.contains u

/-- Lookup of `groups[name]` from server.go. -/
def lookupGroup (cfg : Config) (g : String) : Option GroupInfo :=
  cfg.groups.find? (fun gi => gi.name == g)

/-- The server's shared mutable state: the `clients` map (as an
association list keyed by `conn`), `chatHistory`, and the chat log
(entries without their timestamp prefix). -/
structure ServerState where
  clients : List ClientInfo
  chatHistory : List String
  chatLog : List String
deriving DecidableEq

/-- The state at server start. -/
def initState : ServerState := ⟨[], [], []⟩

/-- `clients[conn]` lookup. -/
def lookupClient (st : ServerState) (conn : Nat) : Option ClientInfo :=
  st.clients.find? (fun c => c.conn == conn)

/-- `delete(clients, conn)`. -/
def removeClient (cs : List ClientInfo) (conn : Nat) : List ClientInfo :=
  cs.filter (fun c => c.conn != conn)

/-- The successful-handshake update of server.go lines 401–405:
set the username and mark the entry active. -/
def setClientActive (cs : List ClientInfo) (conn : Nat) (u : String) : List ClientInfo :=
  cs.map (fun c => if c.conn == conn then { c with username := u, active := true } else c)

/-- `addMessageToHistory` from server.go: append the newline-terminated
message and keep only the last `MAX_HISTORY_LINES` entries. -/
def addMessageToHistory (hist : List String) (message : String) : List String :=
  let h := hist ++ [ensureNewline message]
  if MAX_HISTORY_LINES < h.length then h.drop (h.length - MAX_HISTORY_LINES) else h

/-- `logChatMessage` from server.go, with the timestamp prefix omitted. -/
def logChatMessage (lg : List String) (message : String) : List String :=
  lg ++ [ensureNewline message]

/-- One line delivered on a connection. -/
abbrev Delivery := Nat × String

/-- `sendToClient`: one newline-terminated line written to a connection. -/
def sendLine (conn : Nat) (message : String) : Delivery :=
  (conn, ensureNewline message)

/-- `broadcastMessage` from server.go: deliver to every active client,
except the excluded connection (when one is given). -/
def broadcastMessage (cs : List ClientInfo) (message : String)
    (excludeConn : Option Nat) : List Delivery :=
  let m := ensureNewline message
  (cs.filter (fun c =>
    c.active && (match excludeConn with | none => true | some e => c.conn != e))).map
    (fun c => (c.conn, m))

/-- Registration of a fresh connection (server.go lines 285–339): the
client is inserted into the `clients` map inactive, with no username,
and is sent `REQ_USERNAME`. -/
def connectStep (st : ServerState) (conn : Nat) : ServerState × List Delivery :=
  if st.clients.any (fun c => c.conn == conn) then (st, [])
  else ({ st with clients := st.clients ++ [⟨conn, "", false⟩] },
        [sendLine conn "REQ_USERNAME"])

/-- The username handshake of `handleConnection` (server.go lines
339–427): trim the received line, run the four validation checks in
order (empty, too long, not allowed, already in use by another active
client); on rejection reply and close (the deferred cleanup removes the
inactive entry without any departure message); on success activate the
session, send the welcome line, replay the history snapshot taken before
the join notice is stored, then store and broadcast the join notice to
the other active sessions.  Note this fuses the duplicate scan and the
activation into one atomic step, although the code releases the read
lock after the scan (line 388) before taking the write lock for the
activation (lines 401–405); `fineLoginCheck` / `fineLoginActivate` below
model that split faithfully and exhibit the race it permits. -/
def loginStep (cfg : Config) (st : ServerState) (conn : Nat) (line : String) :
    ServerState × List Delivery :=
  match lookupClient st conn with
  | none => (st, [])
  | some client =>
    if client.active then (st, [])
    else
      let username := goTrimSpace line
      if username = "" then
        ({ st with clients := removeClient st.clients conn },
         [sendLine conn "BAD_USERNAME\nUsername cannot be empty."])
      else if USERNAME_MAX_LEN ≤ username.utf8ByteSize then
        ({ st with clients := removeClient st.clients conn },
         [sendLine conn "BAD_USERNAME\nUsername too long."])
      else if isUsernameAllowed cfg username = false then
        ({ st with clients := removeClient st.clients conn },
         [sendLine conn "NOT_ALLOWED\nUsername not on allowed list."])
      else if st.clients.any
          (fun c => c.active && c.username == username && c.conn != conn) then
        ({ st with clients := removeClient st.clients conn },
         [sendLine conn "BAD_USERNAME\nUsername already in use."])
      else
        let clients := setClientActive st.clients conn username
        let replay :=
          if st.chatHistory.isEmpty then []
          else sendLine conn "--- Recent Chat History ---" ::
               st.chatHistory.map (fun h => sendLine conn h) ++
               [sendLine conn "--- End of History ---"]
        let joinMsg := "System: " ++ username ++ " has joined the chat."
        ({ clients := clients,
           chatHistory := addMessageToHistory st.chatHistory joinMsg,
           chatLog := logChatMessage st.chatLog joinMsg },
         sendLine conn ("Welcome, " ++ username ++ "!") :: replay ++
           broadcastMessage clients joinMsg (some conn))

/-- One iteration of the active message loop of `handleConnection`
(server.go lines 429–549): classify the trimmed line as PRIVMSG,
GROUPMSG or global, and produce the corresponding deliveries and
history/log side effects. -/
def messageStep (cfg : Config) (st : ServerState) (conn : Nat) (message : String) :
    ServerState × List Delivery :=
  match lookupClient st conn with
  | none => (st, [])
  | some client =>
    if client.active = false then (st, [])
    else
      let fullMessageCmd := goTrimSpace message
      if goStartsWith fullMessageCmd "PRIVMSG " then
        let parts := splitN3Space fullMessageCmd
        if parts.length < 3 ∨ parts.getD 1 "" = "" ∨ parts.getD 2 "" = "" then
          (st, [sendLine conn "System: Invalid DM format. Use: PRIVMSG <user> <message>"])
        else
          let recipientUsername := parts.getD 1 ""
          let dmText := parts.getD 2 ""
          match st.clients.find? (fun rc => rc.active && rc.username == recipientUsername) with
          | some recipientClient =>
            let dmLog := "DM from " ++ client.username ++ " to " ++
              recipientUsername ++ ": " ++ dmText
            ({ st with
                 chatHistory := addMessageToHistory st.chatHistory dmLog,
                 chatLog := logChatMessage st.chatLog dmLog },
             [sendLine recipientClient.conn ("(DM from " ++ client.username ++ "): " ++ dmText),
              sendLine conn ("(DM to " ++ recipientUsername ++ "): " ++ dmText)])
          | none =>
            (st, [sendLine conn ("System: User '" ++ recipientUsername ++
              "' not found or is offline.")])
      else if goStartsWith fullMessageCmd "GROUPMSG " then
        let parts := splitN3Space fullMessageCmd
        if parts.length < 3 ∨ parts.getD 1 "" = "" ∨ parts.getD 2 "" = "" then
          (st, [sendLine conn "System: Invalid GM format. Use: GROUPMSG <group> <message>"])
        else
          let groupNameReq := parts.getD 1 ""
          let gmText := parts.getD 2 ""
          match lookupGroup cfg groupNameReq with
          | some group =>
            let gmToSend := "(#" ++ group.name ++ " from " ++ client.username ++ "): " ++ gmText
            let memberDeliveries := group.members.filterMap (fun m =>
              (st.clients.find? (fun c => c.active && c.username == m)).map
                (fun c => sendLine c.conn gmToSend))
            let gmLog := "GROUPMSG to #" ++ group.name ++ " from " ++
              client.username ++ ": " ++ gmText
            ({ st with
                 chatHistory := addMessageToHistory st.chatHistory gmLog,
                 chatLog := logChatMessage st.chatLog gmLog },
             memberDeliveries ++ [sendLine conn ("(To #" ++ group.name ++ "): " ++ gmText)])
          | none =>
            (st, [sendLine conn ("System: Group '#" ++ groupNameReq ++ "' not found.")])
      else
        let globalMsg := client.username ++ ": " ++ message
        ({ st with
             chatHistory := addMessageToHistory st.chatHistory (trimNewline globalMsg),
             chatLog := logChatMessage st.chatLog (trimNewline globalMsg) },
         broadcastMessage st.clients globalMsg none)

/-- The deferred cleanup of `handleConnection` (server.go lines 294–333):
remove the entry from the `clients` map; when the session was active,
store and broadcast the departure notice to the remaining active
sessions; otherwise (closed during handshake) emit nothing. -/
def disconnectStep (st : ServerState) (conn : Nat) : ServerState × List Delivery :=
  match lookupClient st conn with
  | none => (st, [])
  | some c =>
    let clients := removeClient st.clients conn
    if c.active then
      let systemMsg := "System: " ++ c.username ++ " has left the chat."
      ({ clients := clients,
         chatHistory := addMessageToHistory st.chatHistory systemMsg,
         chatLog := logChatMessage st.chatLog systemMsg },
       broadcastMessage clients systemMsg none)
    else ({ st with clients := clients }, [])

/-- The externally visible activity on one connection. -/
inductive Event where
  | connect (conn : Nat)
  | login (conn : Nat) (line : String)
  | message (conn : Nat) (line : String)
  | disconnect (conn : Nat)
deriving DecidableEq

/-- One atomic server step: the new state and the delivered lines. -/
def step (cfg : Config) (st : ServerState) : Event → ServerState × List Delivery
  | .connect conn => connectStep st conn
  | .login conn line => loginStep cfg st conn line
  | .message conn line => messageStep cfg st conn line
  | .disconnect conn => disconnectStep st conn

/-- The state reached from server start after a sequence of events. -/
def run (cfg : Config) (evs : List Event) : ServerState :=
  evs.foldl (fun st e => (step cfg st e).1) initState

/-- Iterated `addMessageToHistory` starting from the empty history. -/
def histRun (msgs : List String) : List String :=
  msgs.foldl addMessageToHistory []

/-- The transport identities in the registry are pairwise distinct
(`clients` is a Go map keyed by the connection). -/
def ConnsNodup (cs : List ClientInfo) : Prop :=
  (cs.map ClientInfo.conn).Nodup

/-- At most one active client per username: two active registry entries
with the same username are the same entry. -/
def ActiveUnique (cs : List ClientInfo) : Prop :=
  ∀ a ∈ cs, ∀ b ∈ cs, a.active = true → b.active = true →
    a.username = b.username → a.conn = b.conn

/-- Active clients carry a username accepted by the handshake checks;
pre-handshake clients still carry the empty username. -/
def UsernamesValid (cfg : Config) (cs : List ClientInfo) : Prop :=
  ∀ c ∈ cs,
    (c.active = true → c.username ≠ "" ∧ c.username.utf8ByteSize < USERNAME_MAX_LEN ∧
       isUsernameAllowed cfg c.username = true) ∧
    (c.active = false → c.username = "")

/-- The registry invariant maintained by every server step. -/
def InvClients (cfg : Config) (cs : List ClientInfo) : Prop :=
  ConnsNodup cs ∧ ActiveUnique cs ∧ UsernamesValid cfg cs

/-- The server-state invariant. -/
def Inv (cfg : Config) (st : ServerState) : Prop :=
  InvClients cfg st.clients

theorem invClients_filter (cfg : Config) (cs : List ClientInfo) (p : ClientInfo → Bool)
    (h : InvClients cfg cs) : InvClients cfg (cs.filter p) := by
  obtain ⟨hn, hu, hv⟩ := h
  refine ⟨?_, ?_, ?_⟩
  · exact ((cs.filter_sublist (p := p)).map ClientInfo.conn).nodup hn
  · intro a ha b hb
    exact hu a (List.mem_of_mem_filter ha) b (List.mem_of_mem_filter hb)
  · intro c hc
    exact hv c (List.mem_of_mem_filter hc)

theorem setClientActive_apply_eq (c : ClientInfo) (k : Nat) (u : String) (h : c.conn = k) :
    (if c.conn == k then { c with username := u, active := true } else c) =
      { c with username := u, active := true } := by
  simp [h]

theorem setClientActive_apply_ne (c : ClientInfo) (k : Nat) (u : String) (h : ¬ c.conn = k) :
    (if c.conn == k then { c with username := u, active := true } else c) = c := by
  simp [h]

theorem setClientActive_map_conn (cs : List ClientInfo) (k : Nat) (u : String) :
    (setClientActive cs k u).map ClientInfo.conn = cs.map ClientInfo.conn := by
  induction cs with
  | nil => rfl
  | cons c cs ih =>
    simp only [setClientActive, List.map_cons] at ih ⊢
    rw [ih]
    by_cases h : c.conn = k
    · rw [setClientActive_apply_eq c k u h]
    · rw [setClientActive_apply_ne c k u h]

theorem invClients_activate (cfg : Config) (cs : List ClientInfo) (k : Nat) (u : String)
    (h : InvClients cfg cs)
    (hne : u ≠ "") (hlen : u.utf8ByteSize < USERNAME_MAX_LEN)
    (hall : isUsernameAllowed cfg u = true)
    (hex : ∀ c ∈ cs, c.conn ≠ k → c.active = true → c.username ≠ u) :
    InvClients cfg (setClientActive cs k u) := by
  obtain ⟨hn, hu, hv⟩ := h
  refine ⟨?_, ?_, ?_⟩
  · unfold ConnsNodup
    rw [setClientActive_map_conn]
    exact hn
  · intro a ha b hb haa hbb heq
    obtain ⟨ca, hca, ha2⟩ := List.mem_map.mp ha
    obtain ⟨cb, hcb, hb2⟩ := List.mem_map.mp hb
    by_cases h1 : ca.conn = k <;> by_cases h2 : cb.conn = k
    · rw [setClientActive_apply_eq ca k u h1] at ha2
      rw [setClientActive_apply_eq cb k u h2] at hb2
      rw [← ha2, ← hb2]
      show ca.conn = cb.conn
      rw [h1, h2]
    · rw [setClientActive_apply_eq ca k u h1] at ha2
      rw [setClientActive_apply_ne cb k u h2] at hb2
      rw [← hb2] at heq hbb
      rw [← ha2] at heq
      exact absurd heq.symm (hex cb hcb h2 hbb)
    · rw [setClientActive_apply_ne ca k u h1] at ha2
      rw [setClientActive_apply_eq cb k u h2] at hb2
      rw [← ha2] at heq haa
      rw [← hb2] at heq
      exact absurd heq (hex ca hca h1 haa)
    · rw [setClientActive_apply_ne ca k u h1] at ha2
      rw [setClientActive_apply_ne cb k u h2] at hb2
      rw [← ha2] at heq haa
      rw [← hb2] at heq hbb
      rw [← ha2, ← hb2]
      exact hu ca hca cb hcb haa hbb heq
  · intro c hc
    obtain ⟨c0, hc0, hc2⟩ := List.mem_map.mp hc
    by_cases h1 : c0.conn = k
    · rw [setClientActive_apply_eq c0 k u h1] at hc2
      rw [← hc2]
      exact ⟨fun _ => ⟨hne, hlen, hall⟩, by simp⟩
    · rw [setClientActive_apply_ne c0 k u h1] at hc2
      rw [← hc2]
      exact hv c0 hc0

theorem invClients_append_inactive (cfg : Config) (cs : List ClientInfo) (k : Nat)
    (h : InvClients cfg cs) (hk : cs.all (fun c => c.conn != k)) :
    InvClients cfg (cs ++ [⟨k, "", false⟩]) := by
  obtain ⟨hn, hu, hv⟩ := h
  refine ⟨?_, ?_, ?_⟩
  · unfold ConnsNodup
    rw [List.map_append]
    refine List.Nodup.append hn (by simp) ?_
    intro x hx hx2
    simp only [List.map_cons, List.map_nil, List.mem_singleton] at hx2
    obtain ⟨c, hc, rfl⟩ := List.mem_map.mp hx
    have := List.all_eq_true.mp hk c hc
    simp only [bne_iff_ne, ne_eq] at this
    exact this hx2
  · intro a ha b hb haa hbb heq
    rcases List.mem_append.mp ha with ha | ha <;>
      rcases List.mem_append.mp hb with hb | hb
    · exact hu a ha b hb haa hbb heq
    · simp only [List.mem_singleton] at hb
      subst hb
      simp at hbb
    · simp only [List.mem_singleton] at ha
      subst ha
      simp at haa
    · simp only [List.mem_singleton] at ha hb
      subst ha; subst hb; rfl
  · intro c hc
    rcases List.mem_append.mp hc with hc | hc
    · exact hv c hc
    · simp only [List.mem_singleton] at hc
      subst hc
      exact ⟨by simp, fun _ => rfl⟩

theorem inv_connectStep (cfg : Config) (st : ServerState) (conn : Nat)
    (h : Inv cfg st) : Inv cfg (connectStep st conn).1 := by
  unfold connectStep
  by_cases hc : st.clients.any (fun c => c.conn == conn) = true
  · rw [if_pos hc]
    exact h
  · rw [if_neg hc]
    refine invClients_append_inactive cfg st.clients conn h ?_
    simp only [List.any_eq_true, beq_iff_eq, not_exists, not_and] at hc
    simp only [List.all_eq_true, bne_iff_ne, ne_eq]
    intro c hcc
    exact hc c hcc

theorem inv_loginStep (cfg : Config) (st : ServerState) (conn : Nat) (line : String)
    (h : Inv cfg st) : Inv cfg (loginStep cfg st conn line).1 := by
  unfold loginStep
  cases hl : lookupClient st conn with
  | none => exact h
  | some client =>
    dsimp only
    by_cases ha : client.active = true
    · rw [if_pos ha]
      exact h
    · rw [if_neg ha]
      by_cases h1 : goTrimSpace line = ""
      · rw [if_pos h1]
        exact invClients_filter cfg st.clients _ h
      · rw [if_neg h1]
        by_cases h2 : USERNAME_MAX_LEN ≤ (goTrimSpace line).utf8ByteSize
        · rw [if_pos h2]
          exact invClients_filter cfg st.clients _ h
        · rw [if_neg h2]
          by_cases h3 : isUsernameAllowed cfg (goTrimSpace line) = false
          · rw [if_pos h3]
            exact invClients_filter cfg st.clients _ h
          · rw [if_neg h3]
            by_cases h4 : st.clients.any
                (fun c => c.active && c.username == goTrimSpace line && c.conn != conn) = true
            · rw [if_pos h4]
              exact invClients_filter cfg st.clients _ h
            · rw [if_neg h4]
              refine invClients_activate cfg st.clients conn (goTrimSpace line) h h1
                (Nat.lt_of_not_le h2) (by simpa using h3) ?_
              intro c hcc hconn hact hu
              refine absurd ?_ h4
              refine List.any_eq_true.mpr ⟨c, hcc, ?_⟩
              simp [hact, hu, hconn]

theorem messageStep_clients_eq (cfg : Config) (st : ServerState) (conn : Nat)
    (line : String) : ((messageStep cfg st conn line).1).clients = st.clients := by
  unfold messageStep
  cases lookupClient st conn with
  | none => rfl
  | some client =>
    dsimp only
    by_cases ha : client.active = false
    · rw [if_pos ha]
    · rw [if_neg ha]
      by_cases hp : goStartsWith (goTrimSpace line) "PRIVMSG " = true
      · rw [if_pos hp]
        split
        · rfl
        · split
          · rfl
          · rfl
      · rw [if_neg hp]
        by_cases hg : goStartsWith (goTrimSpace line) "GROUPMSG " = true
        · rw [if_pos hg]
          split
          · rfl
          · split
            · rfl
            · rfl
        · rw [if_neg hg]

theorem inv_messageStep (cfg : Config) (st : ServerState) (conn : Nat) (line : String)
    (h : Inv cfg st) : Inv cfg (messageStep cfg st conn line).1 := by
  unfold Inv
  rw [messageStep_clients_eq]
  exact h

theorem inv_disconnectStep (cfg : Config) (st : ServerState) (conn : Nat)
    (h : Inv cfg st) : Inv cfg (disconnectStep st conn).1 := by
  unfold disconnectStep
  cases lookupClient st conn with
  | none => exact h
  | some c =>
    dsimp only
    by_cases hc : c.active
    · simpa [hc] using invClients_filter cfg st.clients _ h
    · simpa [hc] using invClients_filter cfg st.clients _ h

theorem inv_step (cfg : Config) (st : ServerState) (e : Event) (h : Inv cfg st) :
    Inv cfg (step cfg st e).1 := by
  cases e with
  | connect conn => exact inv_connectStep cfg st conn h
  | login conn line => exact inv_loginStep cfg st conn line h
  | message conn line => exact inv_messageStep cfg st conn line h
  | disconnect conn => exact inv_disconnectStep cfg st conn h

theorem inv_foldl (cfg : Config) (evs : List Event) (st : ServerState) (h : Inv cfg st) :
    Inv cfg (evs.foldl (fun s e => (step cfg s e).1) st) := by
  induction evs generalizing st with
  | nil => exact h
  | cons e evs ih => exact ih _ (inv_step cfg st e h)

theorem inv_initState (cfg : Config) : Inv cfg initState := by
  refine ⟨?_, ?_, ?_⟩ <;> simp [initState, ConnsNodup, ActiveUnique, UsernamesValid]

/-- Every reachable server state satisfies the registry invariant. -/
theorem inv_run (cfg : Config) (evs : List Event) : Inv cfg (run cfg evs) :=
  inv_foldl cfg evs initState (inv_initState cfg)

theorem conn_inj (cs : List ClientInfo) (hn : ConnsNodup cs) :
    ∀ a ∈ cs, ∀ b ∈ cs, a.conn = b.conn → a = b := by
  intro a ha b hb heq
  exact List.inj_on_of_nodup_map hn ha hb heq

theorem lookupClient_mem (st : ServerState) (conn : Nat) (c : ClientInfo)
    (h : lookupClient st conn = some c) : c ∈ st.clients ∧ c.conn = conn := by
  refine ⟨List.mem_of_find?_eq_some h, ?_⟩
  have := List.find?_some h
  simpa using this

theorem mem_broadcast_of_active (cs : List ClientInfo) (m : String) (c : ClientInfo)
    (hc : c ∈ cs) (ha : c.active = true) :
    (c.conn, ensureNewline m) ∈ broadcastMessage cs m none := by
  unfold broadcastMessage
  refine List.mem_map.mpr ⟨c, ?_, rfl⟩
  refine List.mem_filter.mpr ⟨hc, ?_⟩
  simp [ha]

theorem broadcast_mem_inv (cs : List ClientInfo) (m : String) (p : Delivery)
    (hp : p ∈ broadcastMessage cs m none) :
    ∃ c ∈ cs, c.active = true ∧ p = (c.conn, ensureNewline m) := by
  unfold broadcastMessage at hp
  obtain ⟨c, hc, hc2⟩ := List.mem_map.mp hp
  have hf := List.mem_filter.mp hc
  exact ⟨c, hf.1, by simpa using hf.2, hc2.symm⟩

theorem broadcast_excludes (cs : List ClientInfo) (m : String) (e : Nat) (p : Delivery)
    (hp : p ∈ broadcastMessage cs m (some e)) : p.1 ≠ e := by
  unfold broadcastMessage at hp
  obtain ⟨c, hc, hc2⟩ := List.mem_map.mp hp
  have h2 := (List.mem_filter.mp hc).2
  simp only [Bool.and_eq_true, bne_iff_ne, ne_eq] at h2
  rw [← hc2]
  exact h2.2

theorem broadcast_conns_nodup (cs : List ClientInfo) (m : String) (ex : Option Nat)
    (hn : ConnsNodup cs) : ((broadcastMessage cs m ex).map Prod.fst).Nodup := by
  unfold broadcastMessage
  rw [List.map_map]
  exact ((List.filter_sublist cs).map _).nodup hn

/-- An example configuration: three allowed users and one group. -/
def cfgEx : Config :=
  { allowedUsernames := ["alice", "bob", "carol"],
    groups := [{ name := "friends", members := ["alice", "bob"] }] }

/-- Events bringing alice online on connection 0. -/
def evsAlice : List Event := [.connect 0, .login 0 "alice\n"]

/-- Events bringing alice and bob online on connections 0 and 1. -/
def evsTwo : List Event :=
  [.connect 0, .login 0 "alice\n", .connect 1, .login 1 "bob\n"]

/-- Events bringing alice, bob and carol online on connections 0, 1 and 2. -/
def evsThree : List Event :=
  [.connect 0, .login 0 "alice\n", .connect 1, .login 1 "bob\n",
   .connect 2, .login 2 "carol\n"]

/-- The state of the server together with the goroutine-local data of
handshakes that have passed the duplicate scan: once the shared read lock is
released after the scan (server.go line 388) and until the exclusive lock of
the activation is taken (lines 401-405), the validated username lives only
in the goroutine's local variables, modelled as a pending entry per
connection. -/
structure FineState where
  server : ServerState
  pending : List (Nat × String)
deriving DecidableEq

/-- Handshake activity at the granularity of the code's lock acquisitions:
unlike `Event.login`, the duplicate scan (under `clientsMutex.RLock`) and
the activation (under `clientsMutex.Lock`) are separate steps, because
server.go releases the read lock at line 388 before taking the write lock
at line 401, so scans of concurrent handshakes may interleave between a
scan and its activation. -/
inductive FineEvent where
  | connect (conn : Nat)
  | loginCheck (conn : Nat) (line : String)
  | loginActivate (conn : Nat)
deriving DecidableEq

/-- server.go lines 339-399 as one step: trim the received username line and
run the four checks, the duplicate scan under the shared read lock; a failed
check replies and the deferred cleanup removes the inactive entry; a passed
scan mutates nothing shared - the goroutine only holds on to the username it
is about to install (the read lock is then released, line 388). -/
def fineLoginCheck (cfg : Config) (fs : FineState) (conn : Nat) (line : String) :
    FineState × List Delivery :=
  match lookupClient fs.server conn with
  | none => (fs, [])
  | some client =>
    if client.active then (fs, [])
    else if fs.pending.any (fun p => p.1 == conn) then (fs, [])
    else
      let username := goTrimSpace line
      if username = "" then
        ({ fs with server :=
             { fs.server with clients := removeClient fs.server.clients conn } },
         [sendLine conn "BAD_USERNAME\nUsername cannot be empty."])
      else if USERNAME_MAX_LEN ≤ username.utf8ByteSize then
        ({ fs with server :=
             { fs.server with clients := removeClient fs.server.clients conn } },
         [sendLine conn "BAD_USERNAME\nUsername too long."])
      else if isUsernameAllowed cfg username = false then
        ({ fs with server :=
             { fs.server with clients := removeClient fs.server.clients conn } },
         [sendLine conn "NOT_ALLOWED\nUsername not on allowed list."])
      else if fs.server.clients.any
          (fun c => c.active && c.username == username && c.conn != conn) then
        ({ fs with server :=
             { fs.server with clients := removeClient fs.server.clients conn } },
         [sendLine conn "BAD_USERNAME\nUsername already in use."])
      else
        ({ fs with pending := fs.pending ++ [(conn, username)] }, [])

/-- server.go lines 401-427 as one step: under the exclusive lock set the
username and the active flag of the scanned connection's entry (no re-check
of uniqueness happens here), then send the welcome line, replay the history
snapshot, and store and broadcast the join notice. -/
def fineLoginActivate (fs : FineState) (conn : Nat) : FineState × List Delivery :=
  match fs.pending.find? (fun p => p.1 == conn) with
  | none => (fs, [])
  | some p =>
    let username := p.2
    let clients := setClientActive fs.server.clients conn username
    let replay :=
      if fs.server.chatHistory.isEmpty then []
      else sendLine conn "--- Recent Chat History ---" ::
           fs.server.chatHistory.map (fun h => sendLine conn h) ++
           [sendLine conn "--- End of History ---"]
    let joinMsg := "System: " ++ username ++ " has joined the chat."
    ({ server :=
         { clients := clients,
           chatHistory := addMessageToHistory fs.server.chatHistory joinMsg,
           chatLog := logChatMessage fs.server.chatLog joinMsg },
       pending := fs.pending.filter (fun p => p.1 != conn) },
     sendLine conn ("Welcome, " ++ username ++ "!") :: replay ++
       broadcastMessage clients joinMsg (some conn))

/-- One step of the lock-granularity handshake model. -/
def fineStep (cfg : Config) (fs : FineState) : FineEvent → FineState × List Delivery
  | .connect conn =>
    let r := connectStep fs.server conn
    ({ fs with server := r.1 }, r.2)
  | .loginCheck conn line => fineLoginCheck cfg fs conn line
  | .loginActivate conn => fineLoginActivate fs conn

/-- The state reached from server start in the lock-granularity model. -/
def fineRun (cfg : Config) (evs : List FineEvent) : FineState :=
  evs.foldl (fun fs e => (fineStep cfg fs e).1) ⟨initState, []⟩

/-- The interleaving of two concurrent handshakes submitting the same
username in which both duplicate scans run before either activation:
connections 0 and 1 both submit alice, each scan sees the other entry still
inactive, then both activate. -/
def evsRace : List FineEvent :=
  [.connect 0, .connect 1, .loginCheck 0 "alice\n", .loginCheck 1 "alice\n",
   .loginActivate 0, .loginActivate 1]

/-- C1: the claim is the spec's intent and the code breaks it. The duplicate
scan runs under the shared read lock, released at server.go line 388, while
the activation takes the exclusive lock only at lines 401-405 with no
re-check; in the interleaving `evsRace` both scans pass (neither handshake
receives a rejection - the second scan emits no delivery at all) and both
sessions become active, so the registry reaches a state with two active
sessions named alice: the at-most-one-active-session-per-username invariant
is violated and no `BAD_USERNAME` rejection happens. -/
theorem c1_race_code_bug :
    (fineRun cfgEx evsRace).server.clients =
      [⟨0, "alice", true⟩, ⟨1, "alice", true⟩] ∧
    (fineStep cfgEx (fineRun cfgEx [.connect 0, .connect 1, .loginCheck 0 "alice\n"])
      (.loginCheck 1 "alice\n")).2 = [] ∧
    ¬ ActiveUnique (fineRun cfgEx evsRace).server.clients := by
  refine ⟨by decide, by decide, ?_⟩
  intro h
  have h2 := h ⟨0, "alice", true⟩ (by decide) ⟨1, "alice", true⟩ (by decide) rfl rfl rfl
  exact absurd h2 (by decide)

/-- C2 as stated is false: immediately after a connection is accepted the
registry contains that session with `active = false` (the code inserts the
entry before the handshake). -/
theorem c2_counterexample :
    (⟨0, "", false⟩ : ClientInfo) ∈ (run cfgEx [.connect 0]).clients ∧
    (⟨0, "", false⟩ : ClientInfo).active = false := by
  exact ⟨by decide, rfl⟩

/-- C2 amended: a registry entry is either active with a nonempty username
that passed every handshake check, or still pre-handshake (inactive) with the
empty username; the registry may thus contain non-active sessions, namely
those whose handshake has not finished. -/
theorem c2_registry_entry_states (cfg : Config) (evs : List Event) (c : ClientInfo)
    (hc : c ∈ (run cfg evs).clients) :
    (c.active = true → c.username ≠ "" ∧
      c.username.utf8ByteSize < USERNAME_MAX_LEN ∧
      isUsernameAllowed cfg c.username = true) ∧
    (c.active = false → c.username = "") :=
  (inv_run cfg evs).2.2 c hc

/-- Witness for C2's amended statement at a concrete reachable state. -/
theorem c2_witness :
    ("alice" : String) ≠ "" ∧
    ("alice" : String).utf8ByteSize < USERNAME_MAX_LEN ∧
    isUsernameAllowed cfgEx "alice" = true :=
  (c2_registry_entry_states cfgEx evsAlice ⟨0, "alice", true⟩ (by decide)).1 rfl

theorem find?_map_conn_pred (p : ClientInfo → Bool) (g : ClientInfo → ClientInfo)
    (hp : ∀ c, p (g c) = p c) (l : List ClientInfo) :
    (l.map g).find? p = (l.find? p).map g := by
  induction l with
  | nil => rfl
  | cons c l ih =>
    simp only [List.map_cons]
    cases h : p c with
    | true =>
      rw [List.find?_cons_of_pos _ (by rw [hp c]; exact h),
        List.find?_cons_of_pos _ h]
      rfl
    | false =>
      rw [List.find?_cons_of_neg _ (by rw [hp c, h]; decide),
        List.find?_cons_of_neg _ (by rw [h]; decide)]
      exact ih

/-- C3: the four handshake validation checks, tried in the code's order on
the trimmed username line; the first failing check determines the reply and
the connection is dropped, and only a username passing all four checks makes
the session active. -/
theorem c3_handshake_validation (cfg : Config) (st : ServerState) (conn : Nat)
    (line : String) (cl : ClientInfo)
    (hl : lookupClient st conn = some cl) (ha : cl.active = false) :
    (goTrimSpace line = "" →
      step cfg st (.login conn line) =
        ({ st with clients := removeClient st.clients conn },
         [(conn, "BAD_USERNAME\nUsername cannot be empty.\n")])) ∧
    (goTrimSpace line ≠ "" →
      USERNAME_MAX_LEN ≤ (goTrimSpace line).utf8ByteSize →
      step cfg st (.login conn line) =
        ({ st with clients := removeClient st.clients conn },
         [(conn, "BAD_USERNAME\nUsername too long.\n")])) ∧
    (goTrimSpace line ≠ "" →
      (goTrimSpace line).utf8ByteSize < USERNAME_MAX_LEN →
      isUsernameAllowed cfg (goTrimSpace line) = false →
      step cfg st (.login conn line) =
        ({ st with clients := removeClient st.clients conn },
         [(conn, "NOT_ALLOWED\nUsername not on allowed list.\n")])) ∧
    (goTrimSpace line ≠ "" →
      (goTrimSpace line).utf8ByteSize < USERNAME_MAX_LEN →
      isUsernameAllowed cfg (goTrimSpace line) = true →
      (st.clients.any fun c =>
        c.active && c.username == goTrimSpace line && c.conn != conn) = true →
      step cfg st (.login conn line) =
        ({ st with clients := removeClient st.clients conn },
         [(conn, "BAD_USERNAME\nUsername already in use.\n")])) ∧
    (goTrimSpace line ≠ "" →
      (goTrimSpace line).utf8ByteSize < USERNAME_MAX_LEN →
      isUsernameAllowed cfg (goTrimSpace line) = true →
      (st.clients.any fun c =>
        c.active && c.username == goTrimSpace line && c.conn != conn) = false →
      lookupClient (step cfg st (.login conn line)).1 conn =
        some { cl with username := goTrimSpace line, active := true }) := by
  have hstep : step cfg st (Event.login conn line) = loginStep cfg st conn line := rfl
  refine ⟨?_, ?_, ?_, ?_, ?_⟩
  · intro h1
    rw [hstep]
    unfold loginStep
    rw [hl]
    dsimp only
    rw [if_neg (by simp [ha]), if_pos h1]
    simp only [sendLine]
    rw [(by decide : ensureNewline "BAD_USERNAME\nUsername cannot be empty." =
      "BAD_USERNAME\nUsername cannot be empty.\n")]
  · intro h1 h2
    rw [hstep]
    unfold loginStep
    rw [hl]
    dsimp only
    rw [if_neg (by simp [ha]), if_neg h1, if_pos h2]
    simp only [sendLine]
    rw [(by decide : ensureNewline "BAD_USERNAME\nUsername too long." =
      "BAD_USERNAME\nUsername too long.\n")]
  · intro h1 h2 h3
    rw [hstep]
    unfold loginStep
    rw [hl]
    dsimp only
    rw [if_neg (by simp [ha]), if_neg h1, if_neg (Nat.not_le_of_lt h2), if_pos h3]
    simp only [sendLine]
    rw [(by decide : ensureNewline "NOT_ALLOWED\nUsername not on allowed list." =
      "NOT_ALLOWED\nUsername not on allowed list.\n")]
  · intro h1 h2 h3 h4
    rw [hstep]
    unfold loginStep
    rw [hl]
    dsimp only
    rw [if_neg (by simp [ha]), if_neg h1, if_neg (Nat.not_le_of_lt h2),
      if_neg (by rw [h3]; decide), if_pos h4]
    simp only [sendLine]
    rw [(by decide : ensureNewline "BAD_USERNAME\nUsername already in use." =
      "BAD_USERNAME\nUsername already in use.\n")]
  · intro h1 h2 h3 h4
    rw [hstep]
    unfold loginStep
    rw [hl]
    dsimp only
    rw [if_neg (by simp [ha]), if_neg h1, if_neg (Nat.not_le_of_lt h2),
      if_neg (by rw [h3]; decide), if_neg (by rw [h4]; decide)]
    show lookupClient
      { clients := setClientActive st.clients conn (goTrimSpace line),
        chatHistory := _, chatLog := _ } conn = _
    unfold lookupClient setClientActive
    dsimp only
    rw [find?_map_conn_pred _ _ (fun c => by by_cases hc : c.conn = conn <;> simp [hc]) _]
    show (List.find? (fun c => c.conn == conn) st.clients).map _ = _
    rw [show List.find? (fun c => c.conn == conn) st.clients = some cl from hl]
    have hconn : cl.conn = conn := (lookupClient_mem st conn cl hl).2
    simp [hconn]

/-- Witness for C3 on concrete handshakes: an empty username line is
rejected with the empty-username reply, and a valid one activates the
session. -/
theorem c3_witness :
    step cfgEx (run cfgEx [.connect 0]) (.login 0 "\n") =
      ({ run cfgEx [.connect 0] with
           clients := removeClient (run cfgEx [.connect 0]).clients 0 },
       [(0, "BAD_USERNAME\nUsername cannot be empty.\n")]) ∧
    lookupClient (step cfgEx (run cfgEx [.connect 0]) (.login 0 "alice\n")).1 0 =
      some ⟨0, "alice", true⟩ := by
  constructor
  · exact (c3_handshake_validation cfgEx (run cfgEx [.connect 0]) 0 "\n"
      ⟨0, "", false⟩ (by decide) rfl).1 (by decide)
  · exact (c3_handshake_validation cfgEx (run cfgEx [.connect 0]) 0 "alice\n"
      ⟨0, "", false⟩ (by decide) rfl).2.2.2.2 (by decide) (by decide) (by decide) (by decide)

theorem addMessageToHistory_eq_drop (hist : List String) (m : String) :
    addMessageToHistory hist m =
      (hist ++ [ensureNewline m]).drop ((hist.length + 1) - MAX_HISTORY_LINES) := by
  unfold addMessageToHistory
  dsimp only
  by_cases hlt : MAX_HISTORY_LINES < (hist ++ [ensureNewline m]).length
  · rw [if_pos hlt]
    simp [List.length_append]
  · rw [if_neg hlt]
    simp only [List.length_append, List.length_cons, List.length_nil, not_lt] at hlt
    have h0 : (hist.length + 1) - MAX_HISTORY_LINES = 0 := by omega
    rw [h0, List.drop_zero]

theorem addMessageToHistory_length_le (hist : List String) (m : String)
    (h : hist.length ≤ MAX_HISTORY_LINES) :
    (addMessageToHistory hist m).length ≤ MAX_HISTORY_LINES := by
  rw [addMessageToHistory_eq_drop hist m]
  simp only [List.length_drop, List.length_append, List.length_cons, List.length_nil]
  omega

theorem histFold_eq_drop (msgs : List String) (hist : List String)
    (h : hist.length ≤ MAX_HISTORY_LINES) :
    msgs.foldl addMessageToHistory hist =
      (hist ++ msgs.map ensureNewline).drop
        ((hist.length + msgs.length) - MAX_HISTORY_LINES) := by
  induction msgs generalizing hist with
  | nil =>
    simp only [List.foldl_nil, List.map_nil, List.append_nil, List.length_nil, Nat.add_zero]
    have h0 : hist.length - MAX_HISTORY_LINES = 0 := by omega
    rw [h0, List.drop_zero]
  | cons m ms ih =>
    rw [List.foldl_cons, ih _ (addMessageToHistory_length_le hist m h),
      addMessageToHistory_eq_drop hist m]
    have hk : (hist.length + 1) - MAX_HISTORY_LINES ≤ (hist ++ [ensureNewline m]).length := by
      simp only [List.length_append, List.length_cons, List.length_nil]
      omega
    rw [← List.drop_append_of_le_length hk, List.drop_drop]
    have hlen : ((hist ++ [ensureNewline m]).drop
        ((hist.length + 1) - MAX_HISTORY_LINES)).length =
        (hist.length + 1) - ((hist.length + 1) - MAX_HISTORY_LINES) := by
      simp only [List.length_drop, List.length_append, List.length_cons, List.length_nil]
    rw [hlen]
    have harr : (hist ++ [ensureNewline m]) ++ ms.map ensureNewline =
        hist ++ (m :: ms).map ensureNewline := by
      simp
    rw [harr]
    congr 1
    simp only [List.length_cons]
    omega

/-- C4: starting from an empty buffer, the history always holds at most
`MAX_HISTORY_LINES = 20` entries; appending keeps exactly the most recent
20 lines in append order (ring semantics, oldest evicted first), and after
appending 20 + 5 lines the buffer holds exactly 20 entries, the last 20
appended lines in order. -/
theorem c4_history_bound (msgs : List String) :
    (histRun msgs).length ≤ MAX_HISTORY_LINES ∧
    histRun msgs = (msgs.map ensureNewline).drop (msgs.length - MAX_HISTORY_LINES) ∧
    (msgs.length = MAX_HISTORY_LINES + 5 →
      (histRun msgs).length = MAX_HISTORY_LINES ∧
      histRun msgs = (msgs.map ensureNewline).drop 5) := by
  have he : histRun msgs =
      (msgs.map ensureNewline).drop (msgs.length - MAX_HISTORY_LINES) := by
    have := histFold_eq_drop msgs [] (by simp)
    simpa using this
  refine ⟨?_, he, ?_⟩
  · rw [he]
    simp only [List.length_drop, List.length_map]
    omega
  · intro h25
    rw [he, h25]
    constructor
    · simp only [List.length_drop, List.length_map, h25]
      decide
    · rfl

/-- Witness for C4 at a concrete sequence of 25 appended lines. -/
theorem c4_witness :
    (((List.range 25).map fun n => String.mk (List.replicate n 'x')).length =
      MAX_HISTORY_LINES + 5) ∧
    (histRun ((List.range 25).map fun n => String.mk (List.replicate n 'x'))).length =
      MAX_HISTORY_LINES ∧
    histRun ((List.range 25).map fun n => String.mk (List.replicate n 'x')) =
      (((List.range 25).map fun n => String.mk (List.replicate n 'x')).map
        ensureNewline).drop 5 :=
  ⟨by decide, (c4_history_bound
    ((List.range 25).map fun n => String.mk (List.replicate n 'x'))).2.2 (by decide)⟩

/-- C5 as stated is false on empty lines: an empty inbound line (read as
"\n") matches neither the PRIVMSG nor the GROUPMSG rule and is still routed
as a global message, producing a delivery rather than zero deliveries. -/
theorem c5_counterexample :
    (step cfgEx (run cfgEx evsAlice) (.message 0 "\n")).2 = [(0, "alice: \n")] ∧
    (step cfgEx (run cfgEx evsAlice) (.message 0 "\n")).2 ≠ [] := by
  exact ⟨by decide, by decide⟩

/-- C5 amended: every inbound line from an active sender that does not begin
with the `PRIVMSG ` or `GROUPMSG ` token — including an empty line — is
delivered as `<sender>: <text>` to every active session (the sender
included) and to no non-active session, with exactly one log entry and one
history entry appended and the registry unchanged. -/
theorem c5_global_broadcast (cfg : Config) (st : ServerState) (conn : Nat)
    (line : String) (cl : ClientInfo)
    (hl : lookupClient st conn = some cl) (ha : cl.active = true)
    (hp : goStartsWith (goTrimSpace line) "PRIVMSG " = false)
    (hg : goStartsWith (goTrimSpace line) "GROUPMSG " = false) :
    (step cfg st (.message conn line)).2 =
      broadcastMessage st.clients (cl.username ++ ": " ++ line) none ∧
    (∀ c ∈ st.clients, c.active = true →
      (c.conn, ensureNewline (cl.username ++ ": " ++ line)) ∈
        (step cfg st (.message conn line)).2) ∧
    (∀ p ∈ (step cfg st (.message conn line)).2,
      ∃ c ∈ st.clients, c.active = true ∧
        p = (c.conn, ensureNewline (cl.username ++ ": " ++ line))) ∧
    (step cfg st (.message conn line)).1.chatLog =
      st.chatLog ++ [ensureNewline (trimNewline (cl.username ++ ": " ++ line))] ∧
    (step cfg st (.message conn line)).1.chatHistory =
      addMessageToHistory st.chatHistory (trimNewline (cl.username ++ ": " ++ line)) ∧
    (step cfg st (.message conn line)).1.clients = st.clients := by
  have hstep : step cfg st (Event.message conn line) =
      ({ st with
           chatHistory := addMessageToHistory st.chatHistory
             (trimNewline (cl.username ++ ": " ++ line)),
           chatLog := logChatMessage st.chatLog
             (trimNewline (cl.username ++ ": " ++ line)) },
       broadcastMessage st.clients (cl.username ++ ": " ++ line) none) := by
    show messageStep cfg st conn line = _
    unfold messageStep
    rw [hl]
    dsimp only
    rw [if_neg (by simp [ha]), if_neg (by simp [hp]), if_neg (by simp [hg])]
  rw [hstep]
  refine ⟨rfl, ?_, ?_, rfl, rfl, rfl⟩
  · intro c hc hca
    exact mem_broadcast_of_active st.clients _ c hc hca
  · intro p hp2
    exact broadcast_mem_inv st.clients _ p hp2

/-- Witness for C5 with two active sessions: alice sending "hi" reaches both
alice and bob as "alice: hi" and appends the line to the log. -/
theorem c5_witness :
    (step cfgEx (run cfgEx evsTwo) (.message 0 "hi\n")).2 =
      broadcastMessage (run cfgEx evsTwo).clients ("alice" ++ ": " ++ "hi\n") none ∧
    (step cfgEx (run cfgEx evsTwo) (.message 0 "hi\n")).1.chatLog =
      (run cfgEx evsTwo).chatLog ++
        [ensureNewline (trimNewline ("alice" ++ ": " ++ "hi\n"))] := by
  have h := c5_global_broadcast cfgEx (run cfgEx evsTwo) 0 "hi\n" ⟨0, "alice", true⟩
    (by decide) rfl (by decide) (by decide)
  exact ⟨h.1, h.2.2.2.1⟩

/-- C6: a well-formed `PRIVMSG <recipient> <text>` from an active sender:
when no active session carries the recipient username, the sender alone
receives the not-found reply and the state (registry, history, log) is
unchanged; when the active recipient session is found, exactly the
recipient delivery and the sender confirmation are emitted, one DM log
entry is appended to both log and history, and no other session receives
anything. -/
theorem c6_privmsg (cfg : Config) (st : ServerState) (conn : Nat) (line : String)
    (cl : ClientInfo) (r t : String)
    (hl : lookupClient st conn = some cl) (ha : cl.active = true)
    (hp : goStartsWith (goTrimSpace line) "PRIVMSG " = true)
    (hsplit : splitN3Space (goTrimSpace line) = ["PRIVMSG", r, t])
    (hr : r ≠ "") (ht : t ≠ "") :
    ((∀ c ∈ st.clients, ¬ (c.active = true ∧ c.username = r)) →
      step cfg st (.message conn line) =
        (st, [(conn,
          ensureNewline ("System: User '" ++ r ++ "' not found or is offline."))])) ∧
    (∀ rc, st.clients.find? (fun c => c.active && c.username == r) = some rc →
      step cfg st (.message conn line) =
        ({ st with
             chatHistory := addMessageToHistory st.chatHistory
               ("DM from " ++ cl.username ++ " to " ++ r ++ ": " ++ t),
             chatLog := logChatMessage st.chatLog
               ("DM from " ++ cl.username ++ " to " ++ r ++ ": " ++ t) },
         [(rc.conn, ensureNewline ("(DM from " ++ cl.username ++ "): " ++ t)),
          (conn, ensureNewline ("(DM to " ++ r ++ "): " ++ t))])) := by
  have hform : ¬ ((splitN3Space (goTrimSpace line)).length < 3 ∨
      (splitN3Space (goTrimSpace line)).getD 1 "" = "" ∨
      (splitN3Space (goTrimSpace line)).getD 2 "" = "") := by
    rw [hsplit]
    simp only [List.length_cons, List.length_nil, List.getD]
    push_neg
    refine ⟨by omega, ?_, ?_⟩
    · simpa using hr
    · simpa using ht
  constructor
  · intro hno
    have hfind : st.clients.find? (fun c => c.active && c.username == r) = none := by
      rw [List.find?_eq_none]
      intro c hc
      simp only [Bool.and_eq_true, beq_iff_eq]
      exact fun hcc => hno c hc ⟨hcc.1, hcc.2⟩
    show messageStep cfg st conn line = _
    unfold messageStep
    rw [hl]
    dsimp only
    rw [if_neg (by simp [ha]), if_pos hp, if_neg hform, hsplit]
    rw [show (["PRIVMSG", r, t] : List String).getD 1 "" = r from rfl,
      show (["PRIVMSG", r, t] : List String).getD 2 "" = t from rfl]
    rw [hfind]
    simp only [sendLine]
  · intro rc hfind
    show messageStep cfg st conn line = _
    unfold messageStep
    rw [hl]
    dsimp only
    rw [if_neg (by simp [ha]), if_pos hp, if_neg hform, hsplit]
    rw [show (["PRIVMSG", r, t] : List String).getD 1 "" = r from rfl,
      show (["PRIVMSG", r, t] : List String).getD 2 "" = t from rfl]
    rw [hfind]
    simp only [sendLine]

/-- Witness for C6: with alice, bob and carol active, alice sending
`PRIVMSG bob hello` delivers exactly the two DM lines (to bob and back to
alice), appends the DM log entry, and sends nothing to carol; a DM to the
offline user dave yields only the not-found reply with an unchanged state. -/
theorem c6_witness :
    (step cfgEx (run cfgEx evsThree) (.message 0 "PRIVMSG bob hello\n")).2 =
      [(1, "(DM from alice): hello\n"), (0, "(DM to bob): hello\n")] ∧
    (step cfgEx (run cfgEx evsThree) (.message 0 "PRIVMSG bob hello\n")).1.chatLog =
      (run cfgEx evsThree).chatLog ++ ["DM from alice to bob: hello\n"] ∧
    step cfgEx (run cfgEx evsThree) (.message 0 "PRIVMSG dave hi\n") =
      (run cfgEx evsThree,
       [(0, "System: User 'dave' not found or is offline.\n")]) := by
  have hfound := (c6_privmsg cfgEx (run cfgEx evsThree) 0 "PRIVMSG bob hello\n"
    ⟨0, "alice", true⟩ "bob" "hello" (by decide) rfl (by decide) (by decide)
    (by decide) (by decide)).2 ⟨1, "bob", true⟩ (by decide)
  have hmiss := (c6_privmsg cfgEx (run cfgEx evsThree) 0 "PRIVMSG dave hi\n"
    ⟨0, "alice", true⟩ "dave" "hi" (by decide) rfl (by decide) (by decide)
    (by decide) (by decide)).1 (by decide)
  refine ⟨?_, ?_, ?_⟩
  · rw [hfound]
    decide
  · rw [hfound]
    decide
  · rw [hmiss]
    decide

/-- C7 as stated is false: with group `friends = [alice, bob]` and only
alice active, alice sending `GROUPMSG friends hey` does not receive only the
confirmation line — the member-delivery line `(#friends from alice): hey` is
also sent to alice herself, because the self-exclusion in the member loop is
absent from the code. -/
theorem c7_counterexample :
    (step cfgEx (run cfgEx evsAlice) (.message 0 "GROUPMSG friends hey\n")).2 =
      [(0, "(#friends from alice): hey\n"), (0, "(To #friends): hey\n")] ∧
    (step cfgEx (run cfgEx evsAlice) (.message 0 "GROUPMSG friends hey\n")).2 ≠
      [(0, "(To #friends): hey\n")] := by
  exact ⟨by decide, by decide⟩

/-- C7 amended: in that scenario alice receives exactly two lines — the
member delivery `(#friends from alice): hey` (alice being an active group
member) followed by the confirmation `(To #friends): hey`; the offline
member bob is silently skipped, no other connection receives anything, and
exactly one GROUPMSG entry is appended to the log and to the history. -/
theorem c7_group_routing :
    (step cfgEx (run cfgEx evsAlice) (.message 0 "GROUPMSG friends hey\n")).2 =
      [(0, "(#friends from alice): hey\n"), (0, "(To #friends): hey\n")] ∧
    (step cfgEx (run cfgEx evsAlice) (.message 0 "GROUPMSG friends hey\n")).1.chatLog =
      (run cfgEx evsAlice).chatLog ++ ["GROUPMSG to #friends from alice: hey\n"] ∧
    (step cfgEx (run cfgEx evsAlice)
        (.message 0 "GROUPMSG friends hey\n")).1.chatHistory =
      addMessageToHistory (run cfgEx evsAlice).chatHistory
        "GROUPMSG to #friends from alice: hey" ∧
    (step cfgEx (run cfgEx evsAlice) (.message 0 "GROUPMSG friends hey\n")).1.clients =
      (run cfgEx evsAlice).clients := by
  exact ⟨by decide, by decide, by decide, by decide⟩

/-- C8: when an active session disconnects, it is removed from the registry
and the departure notice `System: <username> has left the chat.` is stored
in both history and log and delivered to every remaining active session,
each at most once (the delivered connections are pairwise distinct); a
session that closes before reaching the active state is removed silently,
with no broadcast and no history or log change. -/
theorem c8_departure (cfg : Config) (evs : List Event) (conn : Nat) (c : ClientInfo)
    (hl : lookupClient (run cfg evs) conn = some c) :
    (c.active = true →
      (step cfg (run cfg evs) (.disconnect conn)).1 =
        { clients := removeClient (run cfg evs).clients conn,
          chatHistory := addMessageToHistory (run cfg evs).chatHistory
            ("System: " ++ c.username ++ " has left the chat."),
          chatLog := logChatMessage (run cfg evs).chatLog
            ("System: " ++ c.username ++ " has left the chat.") } ∧
      (step cfg (run cfg evs) (.disconnect conn)).2 =
        broadcastMessage (removeClient (run cfg evs).clients conn)
          ("System: " ++ c.username ++ " has left the chat.") none ∧
      (∀ d ∈ removeClient (run cfg evs).clients conn, d.active = true →
        (d.conn, ensureNewline ("System: " ++ c.username ++ " has left the chat.")) ∈
          (step cfg (run cfg evs) (.disconnect conn)).2) ∧
      ((step cfg (run cfg evs) (.disconnect conn)).2.map Prod.fst).Nodup) ∧
    (c.active = false →
      (step cfg (run cfg evs) (.disconnect conn)).1 =
        { run cfg evs with clients := removeClient (run cfg evs).clients conn } ∧
      (step cfg (run cfg evs) (.disconnect conn)).2 = []) := by
  have hstep : step cfg (run cfg evs) (Event.disconnect conn) =
      disconnectStep (run cfg evs) conn := rfl
  obtain ⟨hn, _, _⟩ := inv_run cfg evs
  constructor
  · intro ha
    have hd : disconnectStep (run cfg evs) conn =
        ({ clients := removeClient (run cfg evs).clients conn,
           chatHistory := addMessageToHistory (run cfg evs).chatHistory
             ("System: " ++ c.username ++ " has left the chat."),
           chatLog := logChatMessage (run cfg evs).chatLog
             ("System: " ++ c.username ++ " has left the chat.") },
         broadcastMessage (removeClient (run cfg evs).clients conn)
           ("System: " ++ c.username ++ " has left the chat.") none) := by
      unfold disconnectStep
      rw [hl]
      dsimp only
      rw [if_pos ha]
    rw [hstep, hd]
    refine ⟨rfl, rfl, ?_, ?_⟩
    · intro d hd2 hda
      exact mem_broadcast_of_active _ _ d hd2 hda
    · exact broadcast_conns_nodup (removeClient (run cfg evs).clients conn)
        ("System: " ++ c.username ++ " has left the chat.") none
        (((List.filter_sublist (run cfg evs).clients).map ClientInfo.conn).nodup hn)
  · intro ha
    have hd : disconnectStep (run cfg evs) conn =
        ({ run cfg evs with clients := removeClient (run cfg evs).clients conn }, []) := by
      unfold disconnectStep
      rw [hl]
      dsimp only
      rw [if_neg (by simp [ha])]
    rw [hstep, hd]
    exact ⟨rfl, rfl⟩

/-- Witness for C8: bob disconnecting from a three-user chat notifies alice
and carol exactly once each, removes bob from the registry, and stores the
departure notice; a pre-handshake connection disconnecting emits nothing. -/
theorem c8_witness :
    (step cfgEx (run cfgEx evsThree) (.disconnect 1)).2 =
      [(0, "System: bob has left the chat.\n"), (2, "System: bob has left the chat.\n")] ∧
    (step cfgEx (run cfgEx evsThree) (.disconnect 1)).1.clients =
      [⟨0, "alice", true⟩, ⟨2, "carol", true⟩] ∧
    (step cfgEx (run cfgEx [.connect 0]) (.disconnect 0)).2 = [] := by
  have hb := (c8_departure cfgEx evsThree 1 ⟨1, "bob", true⟩ (by decide)).1 rfl
  have hq := (c8_departure cfgEx [.connect 0] 0 ⟨0, "", false⟩ (by decide)).2 rfl
  refine ⟨?_, ?_, ?_⟩
  · rw [hb.2.1]
    decide
  · rw [hb.1]
    decide
  · exact hq.2

/-- C9 as stated is false: for a delivered DM the string appended to the
history buffer is the log-format summary `DM from <s> to <r>: <text>`,
which is not among the delivered strings `(DM from <s>): <text>` /
`(DM to <r>): <text>`. -/
theorem c9_counterexample :
    (step cfgEx (run cfgEx evsTwo) (.message 0 "PRIVMSG bob hello\n")).1.chatHistory =
      (run cfgEx evsTwo).chatHistory ++ ["DM from alice to bob: hello\n"] ∧
    (step cfgEx (run cfgEx evsTwo) (.message 0 "PRIVMSG bob hello\n")).2.map Prod.snd =
      ["(DM from alice): hello\n", "(DM to bob): hello\n"] ∧
    "DM from alice to bob: hello\n" ∉
      ((step cfgEx (run cfgEx evsTwo) (.message 0 "PRIVMSG bob hello\n")).2.map
        Prod.snd) := by
  exact ⟨by decide, by decide, by decide⟩

/-- C9 amended: error replies (malformed PRIVMSG or GROUPMSG, unknown
recipient, unknown group) are ephemeral — they go to the sender only and
leave the registry, the history buffer and the log unchanged; history
entries for deliveries match the delivered string (minus the duplicate
trailing newline) only for global messages, while DM and group deliveries
store a log-format summary line instead. -/
theorem c9_error_replies (cfg : Config) (st : ServerState) (conn : Nat) (line : String)
    (cl : ClientInfo) (hl : lookupClient st conn = some cl) (ha : cl.active = true) :
    (goStartsWith (goTrimSpace line) "PRIVMSG " = true →
      ((splitN3Space (goTrimSpace line)).length < 3 ∨
        (splitN3Space (goTrimSpace line)).getD 1 "" = "" ∨
        (splitN3Space (goTrimSpace line)).getD 2 "" = "") →
      step cfg st (.message conn line) =
        (st, [(conn,
          ensureNewline "System: Invalid DM format. Use: PRIVMSG <user> <message>")])) ∧
    (goStartsWith (goTrimSpace line) "PRIVMSG " = true →
      ¬ ((splitN3Space (goTrimSpace line)).length < 3 ∨
        (splitN3Space (goTrimSpace line)).getD 1 "" = "" ∨
        (splitN3Space (goTrimSpace line)).getD 2 "" = "") →
      (∀ c ∈ st.clients,
        ¬ (c.active = true ∧ c.username = (splitN3Space (goTrimSpace line)).getD 1 "")) →
      step cfg st (.message conn line) =
        (st, [(conn, ensureNewline ("System: User '" ++
          (splitN3Space (goTrimSpace line)).getD 1 "" ++
          "' not found or is offline."))])) ∧
    (goStartsWith (goTrimSpace line) "PRIVMSG " = false →
      goStartsWith (goTrimSpace line) "GROUPMSG " = true →
      ((splitN3Space (goTrimSpace line)).length < 3 ∨
        (splitN3Space (goTrimSpace line)).getD 1 "" = "" ∨
        (splitN3Space (goTrimSpace line)).getD 2 "" = "") →
      step cfg st (.message conn line) =
        (st, [(conn,
          ensureNewline "System: Invalid GM format. Use: GROUPMSG <group> <message>")])) ∧
    (goStartsWith (goTrimSpace line) "PRIVMSG " = false →
      goStartsWith (goTrimSpace line) "GROUPMSG " = true →
      ¬ ((splitN3Space (goTrimSpace line)).length < 3 ∨
        (splitN3Space (goTrimSpace line)).getD 1 "" = "" ∨
        (splitN3Space (goTrimSpace line)).getD 2 "" = "") →
      lookupGroup cfg ((splitN3Space (goTrimSpace line)).getD 1 "") = none →
      step cfg st (.message conn line) =
        (st, [(conn, ensureNewline ("System: Group '#" ++
          (splitN3Space (goTrimSpace line)).getD 1 "" ++ "' not found."))])) := by
  refine ⟨?_, ?_, ?_, ?_⟩
  · intro hp hmal
    show messageStep cfg st conn line = _
    unfold messageStep
    rw [hl]
    dsimp only
    rw [if_neg (by simp [ha]), if_pos hp, if_pos hmal]
    simp only [sendLine]
  · intro hp hmal hno
    have hfind : st.clients.find? (fun rc =>
        rc.active && rc.username == (splitN3Space (goTrimSpace line)).getD 1 "") =
        none := by
      rw [List.find?_eq_none]
      intro c hc
      simp only [Bool.and_eq_true, beq_iff_eq]
      exact fun hcc => hno c hc ⟨hcc.1, hcc.2⟩
    show messageStep cfg st conn line = _
    unfold messageStep
    rw [hl]
    dsimp only
    rw [if_neg (by simp [ha]), if_pos hp, if_neg hmal, hfind]
    simp only [sendLine]
  · intro hp hg hmal
    show messageStep cfg st conn line = _
    unfold messageStep
    rw [hl]
    dsimp only
    rw [if_neg (by simp [ha]), if_neg (by simp [hp]), if_pos hg, if_pos hmal]
    simp only [sendLine]
  · intro hp hg hmal hgr
    show messageStep cfg st conn line = _
    unfold messageStep
    rw [hl]
    dsimp only
    rw [if_neg (by simp [ha]), if_neg (by simp [hp]), if_pos hg, if_neg hmal, hgr]
    simp only [sendLine]

/-- Witness for C9: a PRIVMSG with a missing message body only returns the
invalid-format reply to the sender, with the whole server state unchanged. -/
theorem c9_witness :
    step cfgEx (run cfgEx evsTwo) (.message 0 "PRIVMSG bob\n") =
      (run cfgEx evsTwo,
       [(0, "System: Invalid DM format. Use: PRIVMSG <user> <message>\n")]) := by
  have h := (c9_error_replies cfgEx (run cfgEx evsTwo) 0 "PRIVMSG bob\n"
    ⟨0, "alice", true⟩ (by decide) rfl).1 (by decide) (by decide)
  rw [h]
  decide

/-- C10 as stated is false: if a username rejoins while the history still
holds the join notice of its earlier session, the replay sent to the new
session does contain `System: <username> has joined the chat.` for the
joining username itself. -/
theorem c10_counterexample :
    goTrimSpace "alice\n" = "alice" ∧
    (1, "System: alice has joined the chat.\n") ∈
      (step cfgEx (run cfgEx [.connect 0, .login 0 "alice\n", .disconnect 0, .connect 1])
        (.login 1 "alice\n")).2 := by
  exact ⟨by decide, by decide⟩

/-- C10 amended: on a successful login the history replay is the snapshot
taken before this login's join notice is appended — the join notice
produced by this login is stored only after the snapshot and is broadcast
exclusively to the other active sessions, never to the joining connection
(though the snapshot may still contain a join notice of an earlier session
with the same username). -/
theorem c10_login_replay (cfg : Config) (st : ServerState) (conn : Nat) (line : String)
    (cl : ClientInfo) (hl : lookupClient st conn = some cl) (ha : cl.active = false)
    (h1 : goTrimSpace line ≠ "")
    (h2 : (goTrimSpace line).utf8ByteSize < USERNAME_MAX_LEN)
    (h3 : isUsernameAllowed cfg (goTrimSpace line) = true)
    (h4 : (st.clients.any fun c =>
      c.active && c.username == goTrimSpace line && c.conn != conn) = false) :
    (step cfg st (.login conn line)).2 =
      sendLine conn ("Welcome, " ++ goTrimSpace line ++ "!") ::
        (if st.chatHistory.isEmpty then []
         else sendLine conn "--- Recent Chat History ---" ::
              st.chatHistory.map (fun h => sendLine conn h) ++
              [sendLine conn "--- End of History ---"]) ++
        broadcastMessage (setClientActive st.clients conn (goTrimSpace line))
          ("System: " ++ goTrimSpace line ++ " has joined the chat.") (some conn) ∧
    (step cfg st (.login conn line)).1.chatHistory =
      addMessageToHistory st.chatHistory
        ("System: " ++ goTrimSpace line ++ " has joined the chat.") ∧
    (∀ p ∈ broadcastMessage (setClientActive st.clients conn (goTrimSpace line))
        ("System: " ++ goTrimSpace line ++ " has joined the chat.") (some conn),
      p.1 ≠ conn) := by
  have hstep : step cfg st (Event.login conn line) = loginStep cfg st conn line := rfl
  have hsucc : loginStep cfg st conn line =
      ({ clients := setClientActive st.clients conn (goTrimSpace line),
         chatHistory := addMessageToHistory st.chatHistory
           ("System: " ++ goTrimSpace line ++ " has joined the chat."),
         chatLog := logChatMessage st.chatLog
           ("System: " ++ goTrimSpace line ++ " has joined the chat.") },
       sendLine conn ("Welcome, " ++ goTrimSpace line ++ "!") ::
         (if st.chatHistory.isEmpty then []
          else sendLine conn "--- Recent Chat History ---" ::
               st.chatHistory.map (fun h => sendLine conn h) ++
               [sendLine conn "--- End of History ---"]) ++
         broadcastMessage (setClientActive st.clients conn (goTrimSpace line))
           ("System: " ++ goTrimSpace line ++ " has joined the chat.") (some conn)) := by
    unfold loginStep
    rw [hl]
    dsimp only
    rw [if_neg (by simp [ha]), if_neg h1, if_neg (Nat.not_le_of_lt h2),
      if_neg (by rw [h3]; decide), if_neg (by rw [h4]; decide)]
  rw [hstep, hsucc]
  refine ⟨rfl, rfl, ?_⟩
  intro p hp
  exact broadcast_excludes _ _ conn p hp

/-- Witness for C10: bob logging in after alice receives the welcome line
and the bracketed replay of the pre-join history, and the join broadcast
reaches only alice, never bob's own connection. -/
theorem c10_witness :
    (step cfgEx (run cfgEx [.connect 0, .login 0 "alice\n", .connect 1])
        (.login 1 "bob\n")).2 =
      sendLine 1 ("Welcome, " ++ goTrimSpace "bob\n" ++ "!") ::
        (if (run cfgEx [.connect 0, .login 0 "alice\n", .connect 1]).chatHistory.isEmpty
         then []
         else sendLine 1 "--- Recent Chat History ---" ::
           (run cfgEx [.connect 0, .login 0 "alice\n",
             .connect 1]).chatHistory.map (fun h => sendLine 1 h) ++
           [sendLine 1 "--- End of History ---"]) ++
        broadcastMessage
          (setClientActive
            (run cfgEx [.connect 0, .login 0 "alice\n", .connect 1]).clients 1
            (goTrimSpace "bob\n"))
          ("System: " ++ goTrimSpace "bob\n" ++ " has joined the chat.") (some 1) ∧
    (∀ p ∈ broadcastMessage
        (setClientActive
          (run cfgEx [.connect 0, .login 0 "alice\n", .connect 1]).clients 1
          (goTrimSpace "bob\n"))
        ("System: " ++ goTrimSpace "bob\n" ++ " has joined the chat.") (some 1),
      p.1 ≠ 1) := by
  have h := c10_login_replay cfgEx
    (run cfgEx [.connect 0, .login 0 "alice\n", .connect 1]) 1 "bob\n"
    ⟨1, "", false⟩ (by decide) rfl (by decide) (by decide) (by decide) (by decide)
  exact ⟨h.1, h.2.2⟩

end Tincan
